import Mathlib

/-!
# Verification of the `argpars` command-line argument parser

A shallow embedding of `src/lib.rs` of the `argpars` Rust crate, together
with theorems settling the specification claims about it.

Modelling conventions:
* The invocation snapshot (`std::env::args()`) is injected as an explicit
  parameter of the constructor instead of being read from ambient process
  state; `number_of_arguments` (initialised to `std::env::args().len()` in
  Rust and never mutated) is the snapshot length.
* Rust `HashMap<String, _>` values are modelled as association lists
  (`List (String × _)`); `insert` replaces the value of an existing key and
  otherwise appends, `remove_entry` filters the key out, and
  `*map.get_mut(k).unwrap() = v` is modelled as an in-place value update
  that leaves the map unchanged when the key is absent (the `unwrap` panic
  is unreachable at every call site, which guards on key presence).
* Printing is modelled by returning the list of emitted lines; `pars`
  returns its exit code together with the stdout and stderr lines.
* A single quote character is written `squote` below.
-/

/-- The single-quote character, used in the error-message format strings. -/
def squote : String := (Char.ofNat 39).toString

/-- Rust `str::starts_with('-')`: the first character of the token is the
recognizer marker; `false` for the empty string. -/
def starts_with_marker (s : String) : Bool :=
  match s.data with
  | [] => false
  | c :: _ => c == '-'

/-- `is_value_in_a_vector_str` from `src/lib.rs`:
`vector.iter().any(|a| a == value)`. -/
def is_value_in_a_vector_str (value : String) (vector : List String) : Bool :=
  vector.any (fun a => a == value)

/-- Association-list model of `HashMap::insert`: replace the value at an
existing key, otherwise append the new binding. -/
def assocInsert {α : Type} (m : List (String × α)) (k : String) (v : α) :
    List (String × α) :=
  if m.any (fun p => p.1 == k) then
    m.map (fun p => if p.1 == k then (k, v) else p)
  else
    m ++ [(k, v)]

/-- Association-list model of `*map.get_mut(k).unwrap() = v`: update the
value stored at key `k`; a no-op when `k` is absent (in the source that
case panics, and it is unreachable at every call site). -/
def assocUpdate {α : Type} (m : List (String × α)) (k : String) (v : α) :
    List (String × α) :=
  m.map (fun p => if p.1 == k then (k, v) else p)

/-- Association-list model of `HashMap::remove_entry`. -/
def assocErase {α : Type} (m : List (String × α)) (k : String) :
    List (String × α) :=
  m.filter (fun p => !(p.1 == k))

/-- The `ArgsObj` struct from `src/lib.rs`.  The unused iterator field
`arguments_passed_args` is dropped, and `number_of_arguments` (always equal
to the snapshot length, see the module docstring) is the derived function
`ArgsObj.number_of_arguments` below. -/
structure ArgsObj where
  arguments_passed : List String
  arguments : List String
  default_arguments : Bool
  help_usage : String
  help_name : String
  help_description : String
  help_version : String
  arg_desc_vec : List String
  help_sections : List String
  help_sections_content : List String
  passed_arguments_lookup : List (String × Bool)
  parameters_lookup : List (String × String)
  last_param_ok : Bool
  deriving DecidableEq

/-- `self.number_of_arguments`: initialised to `std::env::args().len()` and
never mutated, hence the snapshot length. -/
def ArgsObj.number_of_arguments (o : ArgsObj) : Nat :=
  o.arguments_passed.length

/-- `Argpars::new`, with the invocation snapshot passed explicitly. -/
def ArgsObj.new (snapshot : List String) : ArgsObj :=
  { arguments_passed := snapshot
    arguments := ["--help", "--version"]
    default_arguments := true
    help_usage := "Usage: " ++ snapshot.getD 0 "" ++ " [OPTION]...\n"
    help_name := "Default name"
    help_description := "Default description"
    help_version := "Default version"
    arg_desc_vec := ["--help", "\tdisplay this help and exit",
      "--version", "output version information and exit"]
    help_sections := []
    help_sections_content := []
    passed_arguments_lookup := [("--help", false), ("--version", false)]
    parameters_lookup := [("--help", ""), ("--version", "")]
    last_param_ok := false }

/-- `no_arguments_passed`: `self.number_of_arguments == 1`. -/
def ArgsObj.no_arguments_passed (o : ArgsObj) : Bool :=
  o.number_of_arguments == 1

/-- `passed`: membership of `arg` in the invocation snapshot. -/
def ArgsObj.passed (o : ArgsObj) (arg : String) : Bool :=
  is_value_in_a_vector_str arg o.arguments_passed

/-- `default_arguments_passed`. -/
def ArgsObj.default_arguments_passed (o : ArgsObj) : Bool :=
  o.passed "--help" || o.passed "--version"

/-- `get_parameter_for`.  The source computes
`arguments_passed.iter().position(|r| r == arg).unwrap()`; the `none`
result models the panic of that `unwrap` when `arg` is not in the
snapshot.  Otherwise the result is `some` of the returned `&str`. -/
def ArgsObj.get_parameter_for (o : ArgsObj) (arg : String) : Option String :=
  match o.arguments_passed.findIdx? (fun r => r == arg) with
  | none => none
  | some index_of_argument =>
    let index_of_parameter := index_of_argument + 1
    if index_of_parameter < o.arguments_passed.length
        ∧ ¬ (o.arguments.contains (o.arguments_passed.getD index_of_parameter "")) then
      some (o.arguments_passed.getD index_of_parameter "")
    else
      some ""

/-- `lookup_update`: for every registered flag present in the snapshot, set
its passed-lookup entry to `true` and its parameter-lookup entry to
`get_parameter_for`.  The Rust loop updates both maps in one pass over
`self.arguments`; since the two maps are updated independently and neither
`arguments` nor `arguments_passed` changes during the loop, the pass is
modelled as one fold per map.  The `get_parameter_for(.).unwrap`-style
total extraction `getD ""` is safe: the update is guarded by snapshot
membership, under which `get_parameter_for` is `some`. -/
def ArgsObj.lookup_update (o : ArgsObj) : ArgsObj :=
  { o with
    passed_arguments_lookup :=
      o.arguments.foldl
        (fun m arg =>
          if o.arguments_passed.contains arg then assocUpdate m arg true else m)
        o.passed_arguments_lookup
    parameters_lookup :=
      o.arguments.foldl
        (fun m arg =>
          if o.arguments_passed.contains arg then
            assocUpdate m arg ((o.get_parameter_for arg).getD "")
          else m)
        o.parameters_lookup }

/-- `add_argument`. -/
def ArgsObj.add_argument (o : ArgsObj) (argument description : String) : ArgsObj :=
  ArgsObj.lookup_update
    { o with
      arguments := o.arguments ++ [argument]
      arg_desc_vec := o.arg_desc_vec ++ [argument, description]
      passed_arguments_lookup := assocInsert o.passed_arguments_lookup argument false
      parameters_lookup := assocInsert o.parameters_lookup argument "" }

/-- `no_default_arguments`: remove the first two registered flags, the
first four description entries, and the `--help`/`--version` lookup
entries. -/
def ArgsObj.no_default_arguments (o : ArgsObj) : ArgsObj :=
  { o with
    arguments := o.arguments.drop 2
    arg_desc_vec := o.arg_desc_vec.drop 4
    passed_arguments_lookup :=
      assocErase (assocErase o.passed_arguments_lookup "--help") "--version"
    parameters_lookup :=
      assocErase (assocErase o.parameters_lookup "--help") "--version"
    default_arguments := false }

/-- The shared loop bound of `wrong_arguments_passed` and `pars`:
`number_of_arguments`, minus one when `last_param_ok` is set. -/
def ArgsObj.loop_end (o : ArgsObj) : Nat :=
  if o.last_param_ok then o.number_of_arguments - 1 else o.number_of_arguments

/-- The body of the validation loop at index `i`: a marker-prefixed token
must be a registered flag, and a bare token must be preceded by a
registered flag. -/
def ArgsObj.bad_index (o : ArgsObj) (i : Nat) : Bool :=
  if starts_with_marker (o.arguments_passed.getD i "") then
    !(o.arguments.contains (o.arguments_passed.getD i ""))
  else
    !(o.arguments.contains (o.arguments_passed.getD (i - 1) ""))

/-- `wrong_arguments_passed`: the `for i in 1..loop_end` scan with an early
`return true`, i.e. `any` over the index range. -/
def ArgsObj.wrong_arguments_passed (o : ArgsObj) : Bool :=
  (List.range' 1 (o.loop_end - 1)).any (fun i => o.bad_index i)

/-- `display_error_message`, returning the emitted stderr lines. -/
def ArgsObj.display_error_message (o : ArgsObj) (err_type additional : String) :
    List String :=
  if err_type == "no_such_option" then
    ["ERROR: No such option: " ++ squote ++ additional ++ squote,
     "Try: " ++ squote ++ o.arguments_passed.getD 0 "" ++ " --help" ++ squote
       ++ " for more information."]
  else
    []

/-- The per-flag lines of the help screen: tab-indented flag plus its
description, looked up as the entry after the flag's first occurrence in
`arg_desc_vec`. -/
def ArgsObj.help_option_lines (o : ArgsObj) : List String :=
  o.arguments.map (fun arg =>
    if o.arg_desc_vec.contains arg then
      "\t" ++ arg ++ "\t"
        ++ o.arg_desc_vec.getD
            (((o.arg_desc_vec.findIdx? (fun a => a == arg)).getD 0) + 1) ""
    else
      "\t" ++ arg)

/-- The help-section lines: each section title followed by its content,
looked up as the entry after the title's first occurrence in
`help_sections_content`. -/
def ArgsObj.help_section_lines (o : ArgsObj) : List String :=
  if o.help_sections.isEmpty then []
  else
    "" :: o.help_sections.flatMap (fun section_ =>
      section_ ::
        (if o.help_sections_content.contains section_ then
          [o.help_sections_content.getD
            (((o.help_sections_content.findIdx? (fun a => a == section_)).getD 0) + 1) ""]
        else []))

/-- `display_help_screen`, returning the emitted stdout lines.  The
`position(..).unwrap()` calls are guarded by `contains`, hence total; the
`getD 0` default is unreachable. -/
def ArgsObj.display_help_screen (o : ArgsObj) : List String :=
  [o.help_usage,
   "Name: " ++ o.help_name,
   "Description: " ++ o.help_description,
   "Version: " ++ o.help_version ++ "\n",
   "Possible options:"]
  ++ o.help_option_lines
  ++ o.help_section_lines

/-- `add_help_section`. -/
def ArgsObj.add_help_section (o : ArgsObj) (section_ content : String) : ArgsObj :=
  { o with
    help_sections := o.help_sections ++ [section_]
    help_sections_content := o.help_sections_content ++ [section_, content] }

/-- Result of `pars`: the returned exit code and the lines emitted on
stdout and stderr. -/
structure ParsResult where
  code : Int
  stdout : List String
  stderr : List String
  deriving DecidableEq

/-- The validation loop inside `pars`, with its early `return 1`: the
result is the token named in the first `no_such_option` error, `none` when
the whole index list validates.  The bare-token branch tests the previous
token with `is_value_in_a_vector_str`, exactly as the source does. -/
def ArgsObj.pars_scan (o : ArgsObj) : List Nat → Option String
  | [] => none
  | i :: rest =>
    if starts_with_marker (o.arguments_passed.getD i "") then
      if !(o.arguments.contains (o.arguments_passed.getD i "")) then
        some (o.arguments_passed.getD i "")
      else
        o.pars_scan rest
    else
      if !(is_value_in_a_vector_str (o.arguments_passed.getD (i - 1) "") o.arguments) then
        some (o.arguments_passed.getD i "")
      else
        o.pars_scan rest

/-- `pars`: the top-level driver. -/
def ArgsObj.pars (o : ArgsObj) : ParsResult :=
  if o.no_arguments_passed then
    { code := 0, stdout := [], stderr := [] }
  else
    match o.pars_scan (List.range' 1 (o.loop_end - 1)) with
    | some tok =>
      { code := 1, stdout := [],
        stderr := o.display_error_message "no_such_option" tok }
    | none =>
      { code := 0,
        stdout :=
          if o.default_arguments then
            (if o.passed "--help" then o.display_help_screen else [])
            ++ (if o.passed "--version" then
                  [o.help_name ++ " version: " ++ o.help_version]
                else [])
          else [],
        stderr := [] }

/-- The keys of an association-list model of a lookup map. -/
def assocKeys {α : Type} (m : List (String × α)) : List String :=
  m.map Prod.fst

/-- `keys_match m args`: the key set of the map `m` and the token set of
the flag list `args` coincide (mutual inclusion; order and multiplicity
are irrelevant to a key set). -/
def keys_match {α : Type} (m : List (String × α)) (args : List String) : Bool :=
  (assocKeys m).all (fun k => args.contains k)
    && args.all (fun a => (assocKeys m).contains a)

/-- The registry synchronisation invariant of the spec: the key set of the
passed-flag lookup map, the key set of the parameter lookup map, and the
set of tokens in the registered flag list are all equal. -/
def lookups_synced (o : ArgsObj) : Bool :=
  keys_match o.passed_arguments_lookup o.arguments
    && keys_match o.parameters_lookup o.arguments

/-! ## Lemmas about the validation scan -/

theorem ivv_eq_contains (v : String) (l : List String) :
    is_value_in_a_vector_str v l = l.contains v := by
  induction l with
  | nil => rfl
  | cons a l ih =>
    rw [show is_value_in_a_vector_str v (a :: l)
          = ((a == v) || is_value_in_a_vector_str v l) from rfl,
      List.contains_cons, ih, Bool.beq_comm]

theorem contains_eq_true_iff_mem (l : List String) (x : String) :
    l.contains x = true ↔ x ∈ l :=
  List.elem_iff

theorem contains_eq_false_iff_not_mem (l : List String) (x : String) :
    l.contains x = false ↔ x ∉ l := by
  rw [← contains_eq_true_iff_mem]
  cases l.contains x <;> simp

/-- One step of the `pars` validation loop, phrased through `bad_index`. -/
theorem pars_scan_cons (o : ArgsObj) (i : Nat) (l : List Nat) :
    o.pars_scan (i :: l) =
      if o.bad_index i then some (o.arguments_passed.getD i "") else o.pars_scan l := by
  cases hm : starts_with_marker (o.arguments_passed.getD i "") <;>
    cases hc : o.arguments.contains (o.arguments_passed.getD i "") <;>
      cases hp : o.arguments.contains (o.arguments_passed.getD (i - 1) "") <;>
        simp only [ArgsObj.pars_scan, ArgsObj.bad_index, ivv_eq_contains,
          hm, hc, hp, Bool.not_true, Bool.not_false] <;>
        simp

/-- The `pars` loop reports an error exactly when some scanned index is bad. -/
theorem pars_scan_isSome (o : ArgsObj) (l : List Nat) :
    (o.pars_scan l).isSome = l.any (fun i => o.bad_index i) := by
  induction l with
  | nil => rfl
  | cons i l ih =>
    rw [pars_scan_cons, List.any_cons]
    by_cases h : o.bad_index i <;> simp [h, ih]

/-- The `pars` loop returns the token at the first bad index. -/
theorem pars_scan_first (o : ArgsObj) (l1 : List Nat) (i : Nat) (l2 : List Nat)
    (hgood : ∀ j ∈ l1, o.bad_index j = false) (hbad : o.bad_index i = true) :
    o.pars_scan (l1 ++ i :: l2) = some (o.arguments_passed.getD i "") := by
  induction l1 with
  | nil => rw [List.nil_append, pars_scan_cons, hbad, if_pos rfl]
  | cons j l1 ih =>
    rw [List.cons_append, pars_scan_cons, hgood j (List.mem_cons_self j l1)]
    exact ih (fun k hk => hgood k (List.mem_cons_of_mem j hk))

/-- Membership in the scanned index range. -/
theorem mem_scan_range (o : ArgsObj) (i : Nat) :
    i ∈ List.range' 1 (o.loop_end - 1) ↔ 1 ≤ i ∧ i < o.loop_end := by
  rw [List.mem_range'_1]
  omega

/-- Unfolding of the per-index validation test. -/
theorem bad_index_iff (o : ArgsObj) (i : Nat) :
    o.bad_index i = true ↔
      ((starts_with_marker (o.arguments_passed.getD i "") = true ∧
          o.arguments_passed.getD i "" ∉ o.arguments) ∨
       (starts_with_marker (o.arguments_passed.getD i "") = false ∧
          o.arguments_passed.getD (i - 1) "" ∉ o.arguments)) := by
  unfold ArgsObj.bad_index
  cases hm : starts_with_marker (o.arguments_passed.getD i "") <;>
    simp only [hm, Bool.false_eq_true, if_false, if_true, Bool.not_eq_true',
      contains_eq_false_iff_not_mem] <;>
    simp

/-- `wrong_arguments_passed` is true exactly when some scanned index is bad. -/
theorem wrong_iff_exists_bad (o : ArgsObj) :
    o.wrong_arguments_passed = true ↔
      ∃ i, 1 ≤ i ∧ i < o.loop_end ∧ o.bad_index i = true := by
  unfold ArgsObj.wrong_arguments_passed
  rw [List.any_eq_true]
  constructor
  · rintro ⟨i, hmem, hbad⟩
    rcases (mem_scan_range o i).mp hmem with ⟨h1, h2⟩
    exact ⟨i, h1, h2, hbad⟩
  · rintro ⟨i, h1, h2, hbad⟩
    exact ⟨i, (mem_scan_range o i).mpr ⟨h1, h2⟩, hbad⟩

/-- With a one-element snapshot the scanned index range is empty. -/
theorem scan_range_nil_of_one (o : ArgsObj) (h : o.number_of_arguments = 1) :
    List.range' 1 (o.loop_end - 1) = [] := by
  have : o.loop_end - 1 = 0 := by
    unfold ArgsObj.loop_end
    rw [h]
    by_cases hl : o.last_param_ok <;> simp [hl]
  rw [this]
  rfl

/-- The exit code of `pars` is `1` or `0` according to
`wrong_arguments_passed`. -/
theorem pars_code_eq (o : ArgsObj) :
    o.pars.code = if o.wrong_arguments_passed then 1 else 0 := by
  unfold ArgsObj.pars
  by_cases h0 : o.no_arguments_passed
  · have hN : o.number_of_arguments = 1 := by
      simpa [ArgsObj.no_arguments_passed] using h0
    have hw : o.wrong_arguments_passed = false := by
      unfold ArgsObj.wrong_arguments_passed
      rw [scan_range_nil_of_one o hN]
      rfl
    simp [h0, hw]
  · rw [if_neg h0]
    have hsome := pars_scan_isSome o (List.range' 1 (o.loop_end - 1))
    cases hscan : o.pars_scan (List.range' 1 (o.loop_end - 1)) with
    | none =>
      rw [hscan] at hsome
      have hw : o.wrong_arguments_passed = false := by
        unfold ArgsObj.wrong_arguments_passed
        exact hsome.symm ▸ rfl
      simp [hw]
    | some tok =>
      rw [hscan] at hsome
      have hw : o.wrong_arguments_passed = true := by
        unfold ArgsObj.wrong_arguments_passed
        exact hsome.symm ▸ rfl
      simp [hw]

/-- C1: for every registry state and invocation snapshot,
`wrong_arguments_passed` returns `true` exactly when `pars` returns exit
code `1`, and `false` exactly when `pars` returns exit code `0`: the
validation scan inside `pars` and the scan in `wrong_arguments_passed`
accept and reject the same inputs, including the no-arguments case and the
`last_param_ok` exclusion of the final index. -/
theorem c1_wrong_arguments_iff_pars_code (o : ArgsObj) :
    (o.wrong_arguments_passed = true ↔ o.pars.code = 1) ∧
    (o.wrong_arguments_passed = false ↔ o.pars.code = 0) := by
  rw [pars_code_eq]
  by_cases h : o.wrong_arguments_passed <;> simp [h]

/-- C2: the validation scan visits snapshot indices `1 .. N-1` (with the
final index excluded when `last_param_ok` is set, via `loop_end`), and
reports failure exactly when some visited index `i` holds a
marker-prefixed token that is not a registered flag, or a bare token whose
predecessor at `i - 1` is not a registered flag. -/
theorem c2_scan_failure_characterisation (o : ArgsObj) :
    o.wrong_arguments_passed = true ↔
      ∃ i, 1 ≤ i ∧ i < o.loop_end ∧
        ((starts_with_marker (o.arguments_passed.getD i "") = true ∧
            o.arguments_passed.getD i "" ∉ o.arguments) ∨
         (starts_with_marker (o.arguments_passed.getD i "") = false ∧
            o.arguments_passed.getD (i - 1) "" ∉ o.arguments)) := by
  rw [wrong_iff_exists_bad]
  apply exists_congr
  intro i
  have hbad := bad_index_iff o i
  tauto

/-! ## Error reporting in `pars` -/

/-- Splitting the scanned index range at a scanned index `i`. -/
theorem scan_range_split (o : ArgsObj) (i : Nat) (h1 : 1 ≤ i) (h2 : i < o.loop_end) :
    List.range' 1 (o.loop_end - 1) =
      List.range' 1 (i - 1) ++ i :: List.range' (i + 1) (o.loop_end - 1 - i) := by
  have key := List.range'_append_1 1 (i - 1) ((o.loop_end - 1 - i) + 1)
  rw [List.range'_succ] at key
  have e2 : 1 + (i - 1) = i := by omega
  have e4 : (o.loop_end - 1 - i) + 1 + (i - 1) = o.loop_end - 1 := by omega
  rw [e2, e4] at key
  exact key.symm

/-- A scanned index forces at least two snapshot elements. -/
theorem not_no_arguments_of_scanned (o : ArgsObj) (i : Nat)
    (h1 : 1 ≤ i) (h2 : i < o.loop_end) : ¬ o.no_arguments_passed = true := by
  have h4 : o.loop_end ≤ o.number_of_arguments := by
    unfold ArgsObj.loop_end
    split <;> omega
  simp only [ArgsObj.no_arguments_passed, beq_iff_eq]
  omega

/-- The two stderr lines of a `no_such_option` report. -/
theorem display_error_lines (o : ArgsObj) (t : String) :
    o.display_error_message "no_such_option" t =
      ["ERROR: No such option: " ++ squote ++ t ++ squote,
       "Try: " ++ squote ++ o.arguments_passed.getD 0 "" ++ " --help" ++ squote
         ++ " for more information."] := rfl

/-- When index `i` is the first failing scanned index, `pars` stops there
with exit code 1 and exactly the `no_such_option` stderr lines for the
token at `i`. -/
theorem pars_error_at_first_bad (o : ArgsObj) (i : Nat)
    (h1 : 1 ≤ i) (h2 : i < o.loop_end) (hbad : o.bad_index i = true)
    (hfirst : ∀ j, 1 ≤ j → j < i → o.bad_index j = false) :
    o.pars =
      { code := 1, stdout := [],
        stderr := o.display_error_message "no_such_option"
          (o.arguments_passed.getD i "") } := by
  unfold ArgsObj.pars
  rw [if_neg (not_no_arguments_of_scanned o i h1 h2)]
  have hgood : ∀ j ∈ List.range' 1 (i - 1), o.bad_index j = false := by
    intro j hj
    rcases List.mem_range'_1.mp hj with ⟨hj1, hj2⟩
    exact hfirst j hj1 (by omega)
  rw [scan_range_split o i h1 h2, pars_scan_first o _ i _ hgood hbad]

/-- C3: when `pars` encounters the first invalid token of its validation
scan, it prints exactly the two stderr lines
`ERROR: No such option: '<token>'` and
`Try: '<program_path> --help' for more information.`, returns exit code 1
immediately with nothing on stdout (no help or version rendering), and no
later token is reported. -/
theorem c3_first_invalid_token_error (o : ArgsObj) (i : Nat)
    (h1 : 1 ≤ i) (h2 : i < o.loop_end) (hbad : o.bad_index i = true)
    (hfirst : ∀ j, 1 ≤ j → j < i → o.bad_index j = false) :
    o.pars =
      { code := 1, stdout := [],
        stderr :=
          ["ERROR: No such option: " ++ squote ++ o.arguments_passed.getD i "" ++ squote,
           "Try: " ++ squote ++ o.arguments_passed.getD 0 "" ++ " --help" ++ squote
             ++ " for more information."] } := by
  rw [pars_error_at_first_bad o i h1 h2 hbad hfirst, display_error_lines]

/-- Witness for C3 at the concrete snapshot `[prog, --bad]`. -/
theorem c3_witness :
    (ArgsObj.new ["prog", "--bad"]).pars =
      { code := 1, stdout := [],
        stderr :=
          ["ERROR: No such option: " ++ squote ++ "--bad" ++ squote,
           "Try: " ++ squote ++ "prog --help" ++ squote ++ " for more information."] } := by
  rw [c3_first_invalid_token_error (ArgsObj.new ["prog", "--bad"]) 1
    (by decide) (by decide) (by decide)
    (fun j hj1 hj2 => absurd hj2 (Nat.not_lt.mpr hj1))]
  decide

/-- C4 as stated is false: in the snapshot `[prog, bare, --unknown]` the
only marker-prefixed token absent from the registry is `--unknown`, and
`pars` does return 1, but the emitted error names the bare token `bare`
(the scan fails at index 1 first), so no error naming `--unknown` is
emitted. -/
theorem c4_counterexample :
    ((ArgsObj.new ["prog", "bare", "--unknown"]).arguments_passed.filter
        (fun t => starts_with_marker t
          && !((ArgsObj.new ["prog", "bare", "--unknown"]).arguments.contains t)))
      = ["--unknown"] ∧
    (ArgsObj.new ["prog", "bare", "--unknown"]).pars.code = 1 ∧
    "ERROR: No such option: " ++ squote ++ "--unknown" ++ squote
      ∉ (ArgsObj.new ["prog", "bare", "--unknown"]).pars.stderr ∧
    (ArgsObj.new ["prog", "bare", "--unknown"]).pars.stderr =
      ["ERROR: No such option: " ++ squote ++ "bare" ++ squote,
       "Try: " ++ squote ++ "prog --help" ++ squote ++ " for more information."] := by
  decide

/-- C4 (amended): whenever some scanned index (`1 ≤ i < loop_end`) holds a
marker-prefixed token absent from the registry, `pars` returns 1; the
emitted error names that token provided no earlier scanned index fails
validation (otherwise the error names the token at the first failing
index). -/
theorem c4_amended_unknown_marker_token (o : ArgsObj) (i : Nat)
    (h1 : 1 ≤ i) (h2 : i < o.loop_end)
    (hm : starts_with_marker (o.arguments_passed.getD i "") = true)
    (hu : o.arguments_passed.getD i "" ∉ o.arguments) :
    o.pars.code = 1 ∧
    ((∀ j, 1 ≤ j → j < i → o.bad_index j = false) →
      "ERROR: No such option: " ++ squote ++ o.arguments_passed.getD i "" ++ squote
        ∈ o.pars.stderr) := by
  have hbad : o.bad_index i = true := (bad_index_iff o i).mpr (Or.inl ⟨hm, hu⟩)
  constructor
  · rw [pars_code_eq, if_pos ((wrong_iff_exists_bad o).mpr ⟨i, h1, h2, hbad⟩)]
  · intro hfirst
    rw [pars_error_at_first_bad o i h1 h2 hbad hfirst, display_error_lines]
    exact List.mem_cons_self _ _

/-- Witness for the amended C4 at the concrete snapshot `[prog, --unknown]`. -/
theorem c4_witness :
    (ArgsObj.new ["prog", "--unknown"]).pars.code = 1 ∧
    "ERROR: No such option: " ++ squote ++ "--unknown" ++ squote
      ∈ (ArgsObj.new ["prog", "--unknown"]).pars.stderr := by
  have h := c4_amended_unknown_marker_token (ArgsObj.new ["prog", "--unknown"]) 1
    (by decide) (by decide) (by decide) (by decide)
  exact ⟨h.1, h.2 (fun j hj1 hj2 => absurd hj2 (Nat.not_lt.mpr hj1))⟩

/-- C5: with a one-element snapshot `pars` does nothing and returns 0; for
longer snapshots, when the validation scan succeeds and the default
built-ins are still enabled, `pars` renders the help screen when `--help`
occurs in the snapshot and prints `<name> version: <version>` when
`--version` occurs (both fire in the same invocation when both are
present), and returns 0. -/
theorem c5_empty_and_builtin_rendering (o : ArgsObj) :
    (o.number_of_arguments = 1 → o.pars = { code := 0, stdout := [], stderr := [] }) ∧
    (o.number_of_arguments ≠ 1 → o.wrong_arguments_passed = false →
      o.default_arguments = true →
      o.pars =
        { code := 0,
          stdout :=
            (if o.passed "--help" then o.display_help_screen else [])
            ++ (if o.passed "--version" then
                  [o.help_name ++ " version: " ++ o.help_version] else []),
          stderr := [] }) := by
  constructor
  · intro h
    unfold ArgsObj.pars
    rw [if_pos (by simp [ArgsObj.no_arguments_passed, h])]
  · intro hN hw hd
    unfold ArgsObj.pars
    rw [if_neg (by simp [ArgsObj.no_arguments_passed, hN])]
    have hsome := pars_scan_isSome o (List.range' 1 (o.loop_end - 1))
    unfold ArgsObj.wrong_arguments_passed at hw
    rw [hw] at hsome
    cases hscan : o.pars_scan (List.range' 1 (o.loop_end - 1)) with
    | some tok => rw [hscan] at hsome; simp at hsome
    | none => rw [if_pos hd]

/-- Witness for C5 at the concrete snapshot `[prog, --help, --version]`:
both the help screen and the version line are emitted. -/
theorem c5_witness :
    (ArgsObj.new ["prog", "--help", "--version"]).pars =
      { code := 0,
        stdout := (ArgsObj.new ["prog", "--help", "--version"]).display_help_screen
          ++ ["Default name version: Default version"],
        stderr := [] } := by
  have h := (c5_empty_and_builtin_rendering
    (ArgsObj.new ["prog", "--help", "--version"])).2 (by decide) (by decide) rfl
  rw [h]
  decide

/-! ## Parameter lookup -/

/-- C6: for a token whose first snapshot occurrence is at index `i`,
`get_parameter_for` returns the snapshot element directly after it when
that element exists and is not a registered flag token, and returns the
empty string when the occurrence is the last snapshot element or the
following element is a registered flag token. -/
theorem c6_get_parameter_characterisation (o : ArgsObj) (t : String) (i : Nat)
    (h : o.arguments_passed.findIdx? (fun r => r == t) = some i) :
    (i + 1 < o.arguments_passed.length ∧
        o.arguments_passed.getD (i + 1) "" ∉ o.arguments →
      o.get_parameter_for t = some (o.arguments_passed.getD (i + 1) "")) ∧
    (i + 1 = o.arguments_passed.length ∨
        o.arguments_passed.getD (i + 1) "" ∈ o.arguments →
      o.get_parameter_for t = some "") := by
  have hred : o.get_parameter_for t =
      if i + 1 < o.arguments_passed.length
          ∧ ¬ o.arguments.contains (o.arguments_passed.getD (i + 1) "") = true then
        some (o.arguments_passed.getD (i + 1) "")
      else some "" := by
    unfold ArgsObj.get_parameter_for
    rw [h]
  rw [hred]
  constructor
  · rintro ⟨hlt, hnm⟩
    have hnc : ¬ o.arguments.contains (o.arguments_passed.getD (i + 1) "") = true := by
      rw [contains_eq_true_iff_mem]
      exact hnm
    rw [if_pos ⟨hlt, hnc⟩]
  · intro hor
    rw [if_neg ?hneg]
    case hneg =>
      rintro ⟨hlt, hnc⟩
      rcases hor with heq | hmem
      · omega
      · exact hnc ((contains_eq_true_iff_mem _ _).mpr hmem)

/-- Witness for C6: concrete scenario with registry `{--print-param}` and
snapshot `[prog, --print-param, hello]`. -/
theorem c6_witness :
    ((ArgsObj.new ["prog", "--print-param", "hello"]).add_argument
        "--print-param" "display param").get_parameter_for "--print-param"
      = some "hello" := by
  have h := (c6_get_parameter_characterisation
    ((ArgsObj.new ["prog", "--print-param", "hello"]).add_argument
      "--print-param" "display param")
    "--print-param" 1 (by decide)).1 ⟨by decide, by decide⟩
  exact h

/-- C7: `get_parameter_for` succeeds (the position lookup cannot fail)
exactly when the queried token occurs in the invocation snapshot; on a
token absent from the snapshot the lookup fails (`none` models the
`unwrap` panic). -/
theorem c7_get_parameter_total_iff_passed (o : ArgsObj) (t : String) :
    (o.get_parameter_for t).isSome = o.passed t := by
  unfold ArgsObj.get_parameter_for ArgsObj.passed is_value_in_a_vector_str
  rw [← List.findIdx?_isSome]
  cases hf : o.arguments_passed.findIdx? (fun r => r == t) with
  | none => rfl
  | some i =>
    show (if _ then _ else _ : Option String).isSome = true
    split <;> rfl

/-- C10: a bare token directly after the program path is rejected whenever
index 1 is scanned and the program-path string at index 0 is not itself a
registered flag token: `wrong_arguments_passed` is true and `pars` returns
exit code 1. -/
theorem c10_bare_token_after_program_path (o : ArgsObj)
    (hlen : 2 ≤ o.number_of_arguments)
    (hm : starts_with_marker (o.arguments_passed.getD 1 "") = false)
    (hscanned : o.last_param_ok = false ∨ 2 < o.number_of_arguments)
    (hprog : o.arguments_passed.getD 0 "" ∉ o.arguments) :
    o.wrong_arguments_passed = true ∧ o.pars.code = 1 := by
  have h2 : 1 < o.loop_end := by
    unfold ArgsObj.loop_end
    rcases hscanned with h | h
    · rw [if_neg (by simp [h])]
      omega
    · split <;> omega
  have hbad : o.bad_index 1 = true :=
    (bad_index_iff o 1).mpr (Or.inr ⟨hm, hprog⟩)
  have hw : o.wrong_arguments_passed = true :=
    (wrong_iff_exists_bad o).mpr ⟨1, Nat.le_refl 1, h2, hbad⟩
  exact ⟨hw, by rw [pars_code_eq, if_pos hw]⟩

/-- Witness for C10 at the concrete snapshot `[prog, bare]`. -/
theorem c10_witness :
    (ArgsObj.new ["prog", "bare"]).wrong_arguments_passed = true ∧
    (ArgsObj.new ["prog", "bare"]).pars.code = 1 :=
  c10_bare_token_after_program_path (ArgsObj.new ["prog", "bare"])
    (by decide) (by decide) (Or.inl rfl) (by decide)

/-! ## Registry mutation: key-set synchronisation and idempotence -/

theorem assocKeys_assocUpdate {α : Type} (m : List (String × α)) (k : String) (v : α) :
    assocKeys (assocUpdate m k v) = assocKeys m := by
  unfold assocKeys assocUpdate
  induction m with
  | nil => rfl
  | cons p m ih =>
    simp only [List.map_cons]
    by_cases hp : (p.1 == k) = true
    · have hk : p.1 = k := by simpa using hp
      rw [if_pos hp, ih, hk]
    · rw [if_neg hp, ih]

/-- Conditionally folding value updates over a list never changes the key
list of the map. -/
theorem assocKeys_fold_update {α : Type} (l : List String) (cond : String → Bool)
    (f : String → α) (m : List (String × α)) :
    assocKeys (l.foldl (fun m a => if cond a then assocUpdate m a (f a) else m) m)
      = assocKeys m := by
  induction l generalizing m with
  | nil => rfl
  | cons a l ih =>
    rw [List.foldl_cons]
    by_cases h : cond a = true
    · rw [if_pos h, ih, assocKeys_assocUpdate]
    · rw [if_neg h, ih]

theorem any_key_iff_mem_assocKeys {α : Type} (m : List (String × α)) (k : String) :
    m.any (fun p => p.1 == k) = true ↔ k ∈ assocKeys m := by
  rw [List.any_eq_true]
  unfold assocKeys
  constructor
  · rintro ⟨p, hp, he⟩
    exact List.mem_map.mpr ⟨p, hp, by simpa using he⟩
  · intro hk
    rcases List.mem_map.mp hk with ⟨p, hp, he⟩
    exact ⟨p, hp, by simpa using he⟩

theorem mem_assocKeys_assocInsert {α : Type} (m : List (String × α)) (k : String)
    (v : α) (x : String) :
    x ∈ assocKeys (assocInsert m k v) ↔ x ∈ assocKeys m ∨ x = k := by
  unfold assocInsert
  by_cases h : m.any (fun p => p.1 == k) = true
  · rw [if_pos h]
    have e : assocKeys (m.map (fun p => if p.1 == k then (k, v) else p))
        = assocKeys m := assocKeys_assocUpdate m k v
    rw [e]
    constructor
    · exact Or.inl
    · rintro (hx | rfl)
      · exact hx
      · exact (any_key_iff_mem_assocKeys m x).mp h
  · rw [if_neg h]
    unfold assocKeys
    rw [List.map_append, List.mem_append]
    simp

theorem mem_assocKeys_assocErase {α : Type} (m : List (String × α)) (k x : String) :
    x ∈ assocKeys (assocErase m k) ↔ x ∈ assocKeys m ∧ x ≠ k := by
  unfold assocKeys assocErase
  constructor
  · intro hx
    rcases List.mem_map.mp hx with ⟨p, hp, he⟩
    rcases List.mem_filter.mp hp with ⟨hpm, hpk⟩
    have hne : p.1 ≠ k := by simpa using hpk
    exact ⟨List.mem_map.mpr ⟨p, hpm, he⟩, he ▸ hne⟩
  · rintro ⟨hx, hne⟩
    rcases List.mem_map.mp hx with ⟨p, hp, he⟩
    refine List.mem_map.mpr ⟨p, List.mem_filter.mpr ⟨hp, ?_⟩, he⟩
    simpa using he ▸ hne

/-- `keys_match` as a pointwise membership equivalence. -/
theorem keys_match_iff {α : Type} (m : List (String × α)) (args : List String) :
    keys_match m args = true ↔ ∀ x, x ∈ assocKeys m ↔ x ∈ args := by
  unfold keys_match
  rw [Bool.and_eq_true, List.all_eq_true, List.all_eq_true]
  constructor
  · rintro ⟨ha, hb⟩ x
    exact ⟨fun hx => (contains_eq_true_iff_mem _ _).mp (ha x hx),
           fun hx => (contains_eq_true_iff_mem _ _).mp (hb x hx)⟩
  · intro h
    exact ⟨fun x hx => (contains_eq_true_iff_mem _ _).mpr ((h x).mp hx),
           fun x hx => (contains_eq_true_iff_mem _ _).mpr ((h x).mpr hx)⟩

/-- Keys of the passed-flag lookup after `add_argument`. -/
theorem add_argument_passed_keys (o : ArgsObj) (t d x : String) :
    x ∈ assocKeys (o.add_argument t d).passed_arguments_lookup ↔
      x ∈ assocKeys o.passed_arguments_lookup ∨ x = t := by
  rw [show (o.add_argument t d).passed_arguments_lookup
        = (o.arguments ++ [t]).foldl
            (fun m arg =>
              if o.arguments_passed.contains arg then assocUpdate m arg true else m)
            (assocInsert o.passed_arguments_lookup t false) from rfl,
    assocKeys_fold_update]
  exact mem_assocKeys_assocInsert _ t false x

/-- Keys of the parameter lookup after `add_argument`. -/
theorem add_argument_parameters_keys (o : ArgsObj) (t d x : String) :
    x ∈ assocKeys (o.add_argument t d).parameters_lookup ↔
      x ∈ assocKeys o.parameters_lookup ∨ x = t := by
  rw [show (o.add_argument t d).parameters_lookup
        = (o.arguments ++ [t]).foldl
            (fun m arg =>
              if o.arguments_passed.contains arg then
                assocUpdate m arg
                  ((ArgsObj.get_parameter_for
                    { o with
                      arguments := o.arguments ++ [t]
                      arg_desc_vec := o.arg_desc_vec ++ [t, d]
                      passed_arguments_lookup :=
                        assocInsert o.passed_arguments_lookup t false
                      parameters_lookup := assocInsert o.parameters_lookup t "" }
                    arg).getD "")
              else m)
            (assocInsert o.parameters_lookup t "") from rfl,
    assocKeys_fold_update]
  exact mem_assocKeys_assocInsert _ t "" x

/-- C8: after construction, after every `add_argument` call, and after a
single `no_default_arguments` call made before any other registration, the
key set of the passed-flag lookup map, the key set of the parameter lookup
map, and the set of tokens in the registered flag list are all equal. -/
theorem c8_lookup_key_sets_synchronised :
    (∀ snapshot, lookups_synced (ArgsObj.new snapshot) = true) ∧
    (∀ (o : ArgsObj) (t d : String),
      lookups_synced o = true → lookups_synced (o.add_argument t d) = true) ∧
    (∀ snapshot, lookups_synced ((ArgsObj.new snapshot).no_default_arguments) = true) := by
  refine ⟨fun snapshot => rfl, ?_, fun snapshot => rfl⟩
  intro o t d hsync
  unfold lookups_synced at hsync ⊢
  rw [Bool.and_eq_true] at hsync ⊢
  rcases hsync with ⟨h1, h2⟩
  rw [keys_match_iff] at h1 h2
  constructor
  · rw [keys_match_iff]
    intro x
    rw [add_argument_passed_keys,
      show (o.add_argument t d).arguments = o.arguments ++ [t] from rfl,
      List.mem_append, List.mem_singleton]
    exact or_congr (h1 x) Iff.rfl
  · rw [keys_match_iff]
    intro x
    rw [add_argument_parameters_keys,
      show (o.add_argument t d).arguments = o.arguments ++ [t] from rfl,
      List.mem_append, List.mem_singleton]
    exact or_congr (h2 x) Iff.rfl

/-- Witness for C8: the invariant holds concretely after construction, an
`add_argument` call, and a fresh `no_default_arguments` call. -/
theorem c8_witness :
    lookups_synced ((ArgsObj.new ["prog"]).add_argument "--x" "desc") = true ∧
    lookups_synced ((ArgsObj.new ["prog"]).no_default_arguments) = true :=
  ⟨c8_lookup_key_sets_synchronised.2.1 (ArgsObj.new ["prog"]) "--x" "desc" (by decide),
   c8_lookup_key_sets_synchronised.2.2 ["prog"]⟩

/-- `add_argument` leaves the invocation snapshot unchanged. -/
theorem add_argument_arguments_passed (o : ArgsObj) (t d : String) :
    (o.add_argument t d).arguments_passed = o.arguments_passed := rfl

/-- `add_argument` appends its token to the registered flag list. -/
theorem add_argument_arguments (o : ArgsObj) (t d : String) :
    (o.add_argument t d).arguments = o.arguments ++ [t] := rfl

/-- `get_parameter_for` depends only on the snapshot and on registry
membership tests. -/
theorem get_parameter_for_congr (a b : ArgsObj) (t : String)
    (hsnap : a.arguments_passed = b.arguments_passed)
    (hargs : ∀ x, a.arguments.contains x = b.arguments.contains x) :
    a.get_parameter_for t = b.get_parameter_for t := by
  unfold ArgsObj.get_parameter_for
  simp only [hsnap, hargs]

/-- Appending an already-present token does not change membership tests. -/
theorem contains_append_dup (l : List String) (t x : String) (h : t ∈ l) :
    (l ++ [t]).contains x = l.contains x := by
  cases hc : l.contains x with
  | true =>
    exact (contains_eq_true_iff_mem _ _).mpr
      (List.mem_append_left _ ((contains_eq_true_iff_mem _ _).mp hc))
  | false =>
    rw [contains_eq_false_iff_not_mem] at hc ⊢
    intro hmem
    rcases List.mem_append.mp hmem with h1 | h1
    · exact hc h1
    · rw [List.mem_singleton] at h1
      exact hc (h1 ▸ h)

/-- C9: calling `add_argument` twice with the same token (and any
descriptions) yields a state in which `passed` and `get_parameter_for`
return the same results for that token as after a single call; the
description storage gains a duplicate entry for the token. -/
theorem c9_double_add_argument_same_queries (o : ArgsObj) (t d1 d2 : String) :
    ((o.add_argument t d1).add_argument t d2).passed t
      = (o.add_argument t d1).passed t ∧
    ((o.add_argument t d1).add_argument t d2).get_parameter_for t
      = (o.add_argument t d1).get_parameter_for t ∧
    ((o.add_argument t d1).add_argument t d2).arg_desc_vec
      = (o.add_argument t d1).arg_desc_vec ++ [t, d2] := by
  refine ⟨rfl, ?_, rfl⟩
  apply get_parameter_for_congr
  · rfl
  · intro x
    rw [add_argument_arguments, add_argument_arguments]
    exact contains_append_dup _ t x
      (List.mem_append_right _ (List.mem_singleton_self t))
